import Mathlib

/-!
Verification of the Supvisors coordination engine against its
natural-language specification.  The Lean definitions below are shallow
embeddings of the Python sources under `supvisors/` and `supervisors/`:
`strategy.py` (placement, conciliation and running-failure strategies),
`rpcinterface.py` (XML-RPC command surface), `pool.py` (asynchronous RPC
helpers), `publisher.py` (event publication) and `supervisordata.py`
(Supervisor internal-data access).
-/

namespace Supvisors

/-! ## Enumerations, from `supvisors/ttypes.py` -/

/-- State of a remote Supvisors instance (`AddressStates`). -/
inductive AddressStates
  | UNKNOWN | CHECKING | RUNNING | SILENT | ISOLATING | ISOLATED
  deriving DecidableEq, Repr

/-- Strategies applicable on a failure of a running application
(`RunningFailureStrategies`); declaration order gives the enum values
CONTINUE=0, RESTART_PROCESS=1, STOP_APPLICATION=2, RESTART_APPLICATION=3. -/
inductive RunningFailureStrategies
  | CONTINUE | RESTART_PROCESS | STOP_APPLICATION | RESTART_APPLICATION
  deriving DecidableEq, Repr

/-- Internal state of Supvisors (`SupvisorsStates` / `SupervisorsStates`). -/
inductive SupervisorsStates
  | INITIALIZATION | DEPLOYMENT | OPERATION | CONCILIATION
  | RESTARTING | SHUTTING_DOWN | SHUTDOWN
  deriving DecidableEq, Repr

/-- State of an application (`ApplicationStates`). -/
inductive ApplicationStates
  | STOPPED | STARTING | RUNNING | STOPPING
  deriving DecidableEq, Repr

/-- Fault codes raised through `RPCError` in `rpcinterface.py`. -/
inductive Fault
  | BAD_STRATEGY | BAD_NAME | BAD_ADDRESS | ALREADY_STARTED
  | ABNORMAL_TERMINATION | BAD_EXTRA_ARGUMENTS | BAD_SUPERVISORS_STATE
  deriving DecidableEq, Repr

/-! ## Placement strategies, from `supvisors/strategy.py`

`supvisors.context.nodes` is embedded as an association list from node name
to `NodeStatus`, in configuration order (Python dicts preserve insertion
order). -/

/-- Liveness record of a node: its state and its current load
(`status.state`, `status.get_load()`). -/
structure NodeStatus where
  state : AddressStates
  load : Nat
  deriving DecidableEq, Repr

/-- Lookup in a Python dict embedded as an association list in insertion
order (`d[k]` / `k in d.keys()`). -/
def alistLookup {β : Type} : List (String × β) → String → Option β
  | [], _ => none
  | kv :: rest, k => if kv.1 = k then some kv.2 else alistLookup rest k

/-- Lookup of a node name in `supvisors.context.nodes`. -/
def lookupNode (nodes : List (String × NodeStatus)) (node_name : String) :
    Option NodeStatus :=
  alistLookup nodes node_name

/-- `AbstractStartingStrategy.is_loading_valid`: returns whether the node can
take the additional load, together with its current load. -/
def is_loading_valid (nodes : List (String × NodeStatus)) (node_name : String)
    (expected_load : Nat) : Bool × Nat :=
  match lookupNode nodes node_name with
  | some status =>
    if status.state = AddressStates.RUNNING then
      (decide (status.load + expected_load < 100), status.load)
    else (false, 0)
  | none => (false, 0)

/-- `AbstractStartingStrategy.get_loading_and_validity`: the loading report of
the considered nodes, in the order of `node_names`. -/
def get_loading_and_validity (nodes : List (String × NodeStatus))
    (node_names : List String) (expected_load : Nat) :
    List (String × (Bool × Nat)) :=
  node_names.map (fun node_name =>
    (node_name, is_loading_valid nodes node_name expected_load))

/-- Order used by `sorted(..., key=lambda t: t[1])`: comparison on the load
component. -/
def loadLE (x y : String × Nat) : Prop := x.2 ≤ y.2

instance : DecidableRel loadLE := fun x y => Nat.decLe x.2 y.2

instance : IsTotal (String × Nat) loadLE := ⟨fun x y => Nat.le_total x.2 y.2⟩

instance : IsTrans (String × Nat) loadLE := ⟨fun _ _ _ => Nat.le_trans⟩

/-- Stable sort by load: Python's `sorted` is a stable sort, whose output is
uniquely determined by the key, and stable insertion sort realizes it. -/
def stableSortByLoad (l : List (String × Nat)) : List (String × Nat) :=
  List.insertionSort loadLE l

/-- `AbstractStartingStrategy.sort_valid_by_loading`: keep the valid entries
with their loads and sort them (stably) by load. -/
def sort_valid_by_loading (loading_validity_map : List (String × (Bool × Nat))) :
    List (String × Nat) :=
  stableSortByLoad ((loading_validity_map.filter (fun e => e.2.1)).map
    (fun e => (e.1, e.2.2)))

/-- Valid entries of the loading report, before sorting (the list
comprehension inside `sort_valid_by_loading`). -/
def validLoads (nodes : List (String × NodeStatus)) (node_names : List String)
    (expected_load : Nat) : List (String × Nat) :=
  ((get_loading_and_validity nodes node_names expected_load).filter
    (fun e => e.2.1)).map (fun e => (e.1, e.2.2))

/-- `LessLoadedStrategy.get_node`: `sorted_nodes[0][0] if sorted_nodes else None`. -/
def less_loaded_get_node (nodes : List (String × NodeStatus))
    (node_names : List String) (expected_load : Nat) : Option String :=
  Option.map Prod.fst
    (sort_valid_by_loading (get_loading_and_validity nodes node_names expected_load)).head?

/-- `MostLoadedStrategy.get_node`: `sorted_nodes[-1][0] if sorted_nodes else None`. -/
def most_loaded_get_node (nodes : List (String × NodeStatus))
    (node_names : List String) (expected_load : Nat) : Option String :=
  Option.map Prod.fst
    (sort_valid_by_loading (get_loading_and_validity nodes node_names expected_load)).getLast?

/-- The first entry achieving the minimal load, i.e. the tie-break by
configuration order claimed by the specification. -/
def firstMinByLoad : List (String × Nat) → Option (String × Nat)
  | [] => none
  | x :: xs =>
    match firstMinByLoad xs with
    | none => some x
    | some m => if x.2 ≤ m.2 then some x else some m

/-- The last entry achieving the maximal load (the tie-break actually
performed by `MostLoadedStrategy`). -/
def lastMaxByLoad : List (String × Nat) → Option (String × Nat)
  | [] => none
  | x :: xs =>
    match lastMaxByLoad xs with
    | none => some x
    | some m => if x.2 ≤ m.2 then some m else some x

/-- The first entry achieving the maximal load: the tie-break by
configuration order that the claim attributes to MOST_LOADED. -/
def firstMaxByLoad : List (String × Nat) → Option (String × Nat)
  | [] => none
  | x :: xs =>
    match firstMaxByLoad xs with
    | none => some x
    | some m => if m.2 ≤ x.2 then some x else some m

/-! ## Conciliation strategies, from `supvisors/strategy.py`

A conflicting process carries the set of nodes it is running on
(`process.running_nodes`, embedded as a list in iteration order) and the
per-node `uptime` of its info map (`process.info_map[node]['uptime']`). -/

/-- Data of one conflicting process used by `SenicideStrategy.conciliate`. -/
structure ConflictProcess where
  namespec : String
  running_nodes : List String
  uptime : String → Nat

/-- Python's `min(nodes, key=uptime)`: the first element achieving the
minimal key, `none` on an empty sequence (where Python raises `ValueError`). -/
def firstMinByUptime (uptime : String → Nat) : List String → Option String
  | [] => none
  | x :: xs =>
    match firstMinByUptime uptime xs with
    | none => some x
    | some m => if uptime x ≤ uptime m then some x else some m

/-- Python's `max(nodes, key=uptime)`: the first element achieving the
maximal key. -/
def firstMaxByUptime (uptime : String → Nat) : List String → Option String
  | [] => none
  | x :: xs =>
    match firstMaxByUptime uptime xs with
    | none => some x
    | some m => if uptime m ≤ uptime x then some x else some m

/-- Stop requests (`send_stop_process(node_name, namespec)`) issued by
`SenicideStrategy.conciliate` for one conflict: the node of minimal uptime is
saved, the others are stopped.  A conflict always has at least two running
nodes, so the empty case is unreachable. -/
def senicide_process_sends (process : ConflictProcess) : List (String × String) :=
  match firstMinByUptime process.uptime process.running_nodes with
  | none => []
  | some saved_node =>
    (process.running_nodes.erase saved_node).map
      (fun node_name => (node_name, process.namespec))

/-- `SenicideStrategy.conciliate` over the conflict list. -/
def senicide_conciliate (conflicts : List ConflictProcess) : List (String × String) :=
  conflicts.flatMap senicide_process_sends

/-- Stop requests issued by `InfanticideStrategy.conciliate` for one conflict:
the node of maximal uptime is saved, the others are stopped. -/
def infanticide_process_sends (process : ConflictProcess) : List (String × String) :=
  match firstMaxByUptime process.uptime process.running_nodes with
  | none => []
  | some saved_node =>
    (process.running_nodes.erase saved_node).map
      (fun node_name => (node_name, process.namespec))

/-! ## RunningFailureHandler, from `supvisors/strategy.py`

The six job sets are embedded as `Finset`s; a process is identified by its
application name, its name and its configured running failure strategy
(`process.rules.running_failure_strategy`).  The Starter/Stopper calls issued
by `trigger_jobs` are not modelled: the claims below concern the evolution of
the job sets only. -/

/-- Identity of a process as used by the failure handler. -/
structure Proc where
  application_name : String
  name : String
  running_failure_strategy : RunningFailureStrategies
  deriving DecidableEq, Repr

/-- The six attributes of `RunningFailureHandler`. -/
structure RFHState where
  stop_application_jobs : Finset String
  restart_application_jobs : Finset String
  restart_process_jobs : Finset Proc
  continue_process_jobs : Finset Proc
  start_application_jobs : Finset String
  start_process_jobs : Finset Proc
  deriving DecidableEq

/-- The sets as built by `RunningFailureHandler.__init__`. -/
def initialRFH : RFHState := ⟨∅, ∅, ∅, ∅, ∅, ∅⟩

/-- `RunningFailureHandler.abort`: clear all sets. -/
def abort_jobs (_s : RFHState) : RFHState := initialRFH

/-- `RunningFailureHandler.add_job`. -/
def add_job (strategy : RunningFailureStrategies) (process : Proc) (s : RFHState) :
    RFHState :=
  match strategy with
  | .STOP_APPLICATION =>
    { s with
      stop_application_jobs := insert process.application_name s.stop_application_jobs,
      restart_application_jobs := s.restart_application_jobs.erase process.application_name,
      restart_process_jobs := s.restart_process_jobs.filter
        (fun x => x.application_name ≠ process.application_name),
      continue_process_jobs := s.continue_process_jobs.filter
        (fun x => x.application_name ≠ process.application_name) }
  | .RESTART_APPLICATION =>
    if process.application_name ∈ s.stop_application_jobs then s
    else
      { s with
        restart_application_jobs := insert process.application_name s.restart_application_jobs,
        restart_process_jobs := s.restart_process_jobs.filter
          (fun x => x.application_name ≠ process.application_name),
        continue_process_jobs := s.continue_process_jobs.filter
          (fun x => x.application_name ≠ process.application_name) }
  | .RESTART_PROCESS =>
    if process.application_name ∈ s.stop_application_jobs ∪ s.restart_application_jobs then s
    else
      { s with
        restart_process_jobs := insert process s.restart_process_jobs,
        continue_process_jobs := s.continue_process_jobs.erase process }
  | .CONTINUE =>
    if process.application_name ∈ s.stop_application_jobs ∪ s.restart_application_jobs
        ∨ process ∈ s.restart_process_jobs then s
    else
      { s with continue_process_jobs := insert process s.continue_process_jobs }

/-- `RunningFailureHandler.add_default_job`: apply the strategy configured in
the process rules. -/
def add_default_job (process : Proc) (s : RFHState) : RFHState :=
  add_job process.running_failure_strategy process s

/-- Environment read by `trigger_jobs`: the applications owned by the
Commanders (`get_job_applications`) and the `stopped()` status of
applications and processes. -/
structure TriggerEnv where
  job_applications : Finset String
  application_stopped : String → Bool
  process_stopped : Proc → Bool

/-- `RunningFailureHandler.trigger_jobs`, restricted to the evolution of the
job sets: deferred entries (whose application is in `job_applications`) are
kept, triggered stop entries leave, triggered restart entries move to the
deferred start sets, deferred start entries leave once stopped and no longer
owned, and `continue_process_jobs` is cleared. -/
def trigger_jobs (env : TriggerEnv) (s : RFHState) : RFHState :=
  let stop_application_jobs :=
    s.stop_application_jobs.filter (fun a => a ∈ env.job_applications)
  let restart_application_jobs :=
    s.restart_application_jobs.filter (fun a => a ∈ env.job_applications)
  let start_application_pending :=
    s.start_application_jobs ∪
      s.restart_application_jobs.filter (fun a => a ∉ env.job_applications)
  let restart_process_jobs :=
    s.restart_process_jobs.filter (fun p => p.application_name ∈ env.job_applications)
  let start_process_pending :=
    s.start_process_jobs ∪
      s.restart_process_jobs.filter (fun p => p.application_name ∉ env.job_applications)
  let start_application_jobs :=
    start_application_pending.filter
      (fun a => ¬(env.application_stopped a = true ∧ a ∉ env.job_applications))
  let start_process_jobs :=
    start_process_pending.filter
      (fun p => ¬(env.process_stopped p = true ∧ p.application_name ∉ env.job_applications))
  { stop_application_jobs := stop_application_jobs,
    restart_application_jobs := restart_application_jobs,
    restart_process_jobs := restart_process_jobs,
    continue_process_jobs := ∅,
    start_application_jobs := start_application_jobs,
    start_process_jobs := start_process_jobs }

/-- Operations offered by the handler. -/
inductive RFHOp where
  | add (strategy : RunningFailureStrategies) (process : Proc)
  | addDefault (process : Proc)
  | abortAll
  | trigger (env : TriggerEnv)

/-- Apply one handler operation. -/
def applyRFHOp (s : RFHState) : RFHOp → RFHState
  | .add strategy process => add_job strategy process s
  | .addDefault process => add_default_job process s
  | .abortAll => abort_jobs s
  | .trigger env => trigger_jobs env s

/-- Apply a sequence of handler operations. -/
def applyRFHOps (ops : List RFHOp) (s : RFHState) : RFHState :=
  ops.foldl applyRFHOp s

/-- Invariant actually maintained by the handler: the two application-level
sets are disjoint, no process entry belongs to an application present in an
application-level set, and the two process-level sets are disjoint as process
sets. -/
def RFHInv (s : RFHState) : Prop :=
  (∀ a ∈ s.stop_application_jobs, a ∉ s.restart_application_jobs) ∧
  (∀ p ∈ s.restart_process_jobs,
    p.application_name ∉ s.stop_application_jobs ∧
    p.application_name ∉ s.restart_application_jobs) ∧
  (∀ p ∈ s.continue_process_jobs,
    p.application_name ∉ s.stop_application_jobs ∧
    p.application_name ∉ s.restart_application_jobs) ∧
  (∀ p ∈ s.restart_process_jobs, p ∉ s.continue_process_jobs)

instance (s : RFHState) : Decidable (RFHInv s) := by
  unfold RFHInv; infer_instance

/-- Applications represented in a process job set. -/
def appsOfJobs (jobs : Finset Proc) : Finset String :=
  jobs.image Proc.application_name

/-- The six job sets projected to application names. -/
def sixJobAppSets (s : RFHState) : List (Finset String) :=
  [s.stop_application_jobs, s.restart_application_jobs,
   appsOfJobs s.restart_process_jobs, appsOfJobs s.continue_process_jobs,
   s.start_application_jobs, appsOfJobs s.start_process_jobs]

/-- Disjointness claimed by the specification: no application appears,
directly or through one of its processes, in more than one of the six sets. -/
def pairwiseDisjointPerApplication (s : RFHState) : Prop :=
  (sixJobAppSets s).Pairwise (fun u v => ∀ x ∈ u, x ∉ v)

instance (s : RFHState) : Decidable (pairwiseDisjointPerApplication s) := by
  unfold pairwiseDisjointPerApplication; infer_instance

/-! ## RPC command surface, from `supervisors/rpcinterface.py`

Only the data read by `start_application` / `stop_application` is embedded:
the FSM state, the application registry (name and state), and the boolean
results of `starter.start_application` / `stopper.stop_application`.  The
second component of each result lists the jobs handed to the Starter
(respectively the Stopper). -/

/-- Modelled from the spec: the closed family of deployment strategies
(CONFIG / LESS_LOADED / MOST_LOADED / LOCAL, section 4.2), giving the four
values of `DeploymentStrategies._values()`; the defining module
`supervisors/ttypes.py` is not part of the sources. -/
def DeploymentStrategies_values : List Nat := [0, 1, 2, 3]

/-- Environment of an RPC command. -/
structure RpcEnv where
  fsm_state : SupervisorsStates
  applications : List (String × ApplicationStates)
  starter_done : Bool
  stopper_done : Bool

/-- Result of an RPC command: an immediate boolean, or the deferred `onwait`
callable returned when `wait` is set and the job is in progress. -/
inductive RpcOutcome
  | value (b : Bool)
  | deferred
  deriving DecidableEq, Repr

/-- `RPCInterface._check_state`: raise `BAD_SUPERVISORS_STATE` when the FSM
state is not in the permitted list. -/
def check_state (fsm_state : SupervisorsStates) (states : List SupervisorsStates) :
    Except Fault Unit :=
  if fsm_state ∈ states then Except.ok () else Except.error Fault.BAD_SUPERVISORS_STATE

/-- `RPCInterface.start_application`.  The second component is the list of
`(strategy, application_name)` jobs handed to `starter.start_application`. -/
def start_application (env : RpcEnv) (strategy : Nat) (application_name : String)
    (wait : Bool) : Except Fault RpcOutcome × List (Nat × String) :=
  match check_state env.fsm_state [SupervisorsStates.OPERATION] with
  | Except.error f => (Except.error f, [])
  | Except.ok _ =>
    if strategy ∉ DeploymentStrategies_values then (Except.error Fault.BAD_STRATEGY, [])
    else
      match alistLookup env.applications application_name with
      | none => (Except.error Fault.BAD_NAME, [])
      | some app_state =>
        if app_state = ApplicationStates.RUNNING then
          (Except.error Fault.ALREADY_STARTED, [])
        else
          let done := env.starter_done
          (if wait && !done then Except.ok RpcOutcome.deferred
           else Except.ok (RpcOutcome.value (!done)),
           [(strategy, application_name)])

/-- `RPCInterface.stop_application`.  The second component is the list of
application names handed to `stopper.stop_application`. -/
def stop_application (env : RpcEnv) (application_name : String) (wait : Bool) :
    Except Fault RpcOutcome × List String :=
  match check_state env.fsm_state
      [SupervisorsStates.OPERATION, SupervisorsStates.CONCILIATION] with
  | Except.error f => (Except.error f, [])
  | Except.ok _ =>
    match alistLookup env.applications application_name with
    | none => (Except.error Fault.BAD_NAME, [])
    | some _ =>
      let done := env.stopper_done
      (if wait && !done then Except.ok RpcOutcome.deferred
       else Except.ok (RpcOutcome.value (!done)),
       [application_name])

/-! ## Asynchronous RPC helpers, from `supvisors/pool.py`

Every remote interaction is an input: an `Option` result models a remote
call (`none` meaning the call raises), a `Bool` models a step that either
succeeds or raises.  Each helper body returns the effects it performed
together with a flag telling whether an exception escaped the body; the
helper itself wraps the body in the `try/except: pass` of the source. -/

/-- Payload read by `async_check_address` from the remote's
`get_address_info`.  Modelled from the spec: the remote reports the probed
node's state (`statecode`, sections 4.8 and 6); the supvisors-era
`rpcinterface.get_address_info` producing it is not part of the sources. -/
structure AddressInfoPayload where
  statecode : AddressStates
  deriving DecidableEq, Repr

/-- Remote-world inputs of `async_check_address`. -/
structure CheckEnv where
  local_proxy_ok : Bool
  remote_proxy_ok : Bool
  get_address_info_result : Option AddressInfoPayload
  all_process_info_result : Option (List String)
  send_info_ok : Bool
  send_auth_ok : Bool

/-- Observable effects of `async_check_address`: a put on the info queue, the
`SUPVISORS_INFO` remote communication event, and the `SUPVISORS_AUTH` remote
communication event carrying the authorization verdict. -/
inductive PoolEffect
  | queue_put (address_name : String) (all_process_info : List String)
  | comm_event_info
  | comm_event_auth (address_name : String) (authorized : Bool)
  deriving DecidableEq, Repr

/-- Body of `async_check_address` (inside the `try`). -/
def async_check_address_body (address_name : String) (env : CheckEnv) :
    List PoolEffect × Bool :=
  if !env.local_proxy_ok then ([], true)
  else if !env.remote_proxy_ok then ([], true)
  else
    match env.get_address_info_result with
    | none => ([], true)
    | some status =>
      let authorized :=
        decide (status.statecode ∉ [AddressStates.ISOLATING, AddressStates.ISOLATED])
      if authorized then
        match env.all_process_info_result with
        | none => ([], true)
        | some info =>
          if !env.send_info_ok then ([PoolEffect.queue_put address_name info], true)
          else if !env.send_auth_ok then
            ([PoolEffect.queue_put address_name info, PoolEffect.comm_event_info], true)
          else
            ([PoolEffect.queue_put address_name info, PoolEffect.comm_event_info,
              PoolEffect.comm_event_auth address_name true], false)
      else
        if !env.send_auth_ok then ([], true)
        else ([PoolEffect.comm_event_auth address_name false], false)

/-- The `try: ... except: pass` of the pool helpers: every exception of the
body is absorbed, the effects already performed stand. -/
def tryExceptPass {E : Type} (r : List E × Bool) : List E × Bool := (r.1, false)

/-- `async_check_address`. -/
def async_check_address (address_name : String) (env : CheckEnv) :
    List PoolEffect × Bool :=
  tryExceptPass (async_check_address_body address_name env)

/-- Remote calls issued by the other pool helpers. -/
inductive RpcCallEffect
  | start_args (address_name namespec extra_args : String)
  | stopProcess (address_name namespec : String)
  | restart_call (address_name : String)
  | shutdown_call (address_name : String)
  deriving DecidableEq, Repr

/-- Body of `async_start_process`: build the proxy, then call
`supvisors.start_args`. -/
def async_start_process_body (address_name namespec extra_args : String)
    (proxy_ok call_ok : Bool) : List RpcCallEffect × Bool :=
  if !proxy_ok then ([], true)
  else if !call_ok then ([], true)
  else ([RpcCallEffect.start_args address_name namespec extra_args], false)

/-- `async_start_process`. -/
def async_start_process (address_name namespec extra_args : String)
    (proxy_ok call_ok : Bool) : List RpcCallEffect × Bool :=
  tryExceptPass (async_start_process_body address_name namespec extra_args proxy_ok call_ok)

/-- Body of `async_stop_process`: build the proxy, then call
`supervisor.stopProcess`. -/
def async_stop_process_body (address_name namespec : String)
    (proxy_ok call_ok : Bool) : List RpcCallEffect × Bool :=
  if !proxy_ok then ([], true)
  else if !call_ok then ([], true)
  else ([RpcCallEffect.stopProcess address_name namespec], false)

/-- `async_stop_process`. -/
def async_stop_process (address_name namespec : String) (proxy_ok call_ok : Bool) :
    List RpcCallEffect × Bool :=
  tryExceptPass (async_stop_process_body address_name namespec proxy_ok call_ok)

/-- Body of `async_restart`: build the proxy, then call `supervisor.restart`. -/
def async_restart_body (address_name : String) (proxy_ok call_ok : Bool) :
    List RpcCallEffect × Bool :=
  if !proxy_ok then ([], true)
  else if !call_ok then ([], true)
  else ([RpcCallEffect.restart_call address_name], false)

/-- `async_restart`. -/
def async_restart (address_name : String) (proxy_ok call_ok : Bool) :
    List RpcCallEffect × Bool :=
  tryExceptPass (async_restart_body address_name proxy_ok call_ok)

/-- Body of `async_shutdown`: build the proxy, then call
`supervisor.shutdown`. -/
def async_shutdown_body (address_name : String) (proxy_ok call_ok : Bool) :
    List RpcCallEffect × Bool :=
  if !proxy_ok then ([], true)
  else if !call_ok then ([], true)
  else ([RpcCallEffect.shutdown_call address_name], false)

/-- `async_shutdown`. -/
def async_shutdown (address_name : String) (proxy_ok call_ok : Bool) :
    List RpcCallEffect × Bool :=
  tryExceptPass (async_shutdown_body address_name proxy_ok call_ok)

/-! ## Cluster-wide restart and shutdown, from `supervisors/rpcinterface.py` -/

/-- Entry of `self.context.addresses`. -/
structure AddressStatus where
  address : String
  state : AddressStates
  deriving DecidableEq, Repr

/-- `RPCInterface._send_addresses_func`: the ordered list of addresses the
request is issued to.  A remote address is called only when it differs from
the local address and its state is RUNNING (the source tests the inequality
twice); an `RPCError` from a remote call is absorbed.  The local address is
called last, unconditionally. -/
def send_addresses_func (local_address : String) (addresses : List AddressStatus) :
    List String :=
  ((addresses.filter (fun status =>
      status.address ≠ local_address ∧
        (status.state = AddressStates.RUNNING ∧ status.address ≠ local_address))).map
    AddressStatus.address) ++ [local_address]

/-- `RPCInterface.restart`: `_send_addresses_func(requester.restart)`. -/
def restart_requests (local_address : String) (addresses : List AddressStatus) :
    List RpcCallEffect :=
  (send_addresses_func local_address addresses).map RpcCallEffect.restart_call

/-- `RPCInterface.shutdown`: `_send_addresses_func(requester.shutdown)`. -/
def shutdown_requests (local_address : String) (addresses : List AddressStatus) :
    List RpcCallEffect :=
  (send_addresses_func local_address addresses).map RpcCallEffect.shutdown_call

/-! ## Event publication, from `supervisors/publisher.py`

Python name resolution decides what `send_json` receives: a name is looked
up among the method's locals, then among the module-level names; an unbound
name raises `NameError`. -/

/-- Module-level names visible inside `_EventPublisher` methods.  Modelled
from the spec for the part coming from `supervisors.utils` (absent from the
sources): the wildcard import provides the event headers, and "a
`sendStatistics` path references a local `status` that is never bound"
(section 9), so no name `status` exists at module scope. -/
def publisherModuleGlobals : List String :=
  ["options", "zmq", "SupervisorsStatusHeader", "RemoteStatusHeader",
   "ApplicationStatusHeader", "ProcessStatusHeader", "StatisticsHeader",
   "eventPublisher"]

/-- Errors of the embedded Python fragment. -/
inductive PyError
  | nameError (name : String)
  deriving DecidableEq, Repr

/-- Python name resolution: a local binding wins, otherwise a module-level
name resolves to a value not modelled here, otherwise `NameError`. -/
def resolveName (locals_ : List (String × String)) (globals_ : List String)
    (name : String) : Except PyError (Option String) :=
  match alistLookup locals_ name with
  | some v => Except.ok (some v)
  | none =>
    if name ∈ globals_ then Except.ok none
    else Except.error (PyError.nameError name)

/-- Frames sent on the PUB socket: a header string (with `SNDMORE`) or a JSON
body. -/
inductive Frame
  | header (name : String) (sndmore : Bool)
  | json (body : String)
  deriving DecidableEq, Repr

/-- `_EventPublisher.sendStatistics`: the parameter is `stats`, the header
frame is sent, then `send_json(status)` resolves the name `status`, which is
neither a local of the method nor a module-level name. -/
def sendStatistics (stats : String) : List Frame × Except PyError Unit :=
  let head := [Frame.header "StatisticsHeader" true]
  match resolveName [("self", "publisher"), ("stats", stats)] publisherModuleGlobals
      "status" with
  | Except.error e => (head, Except.error e)
  | Except.ok (some v) => (head ++ [Frame.json v], Except.ok ())
  | Except.ok none => (head ++ [Frame.json "module-level-object"], Except.ok ())

/-- `_EventPublisher.sendProcessStatus`: the parameter is named `status` and
`send_json(status)` resolves it to the argument. -/
def sendProcessStatus (status : String) : List Frame × Except PyError Unit :=
  let head := [Frame.header "ProcessStatusHeader" true]
  match resolveName [("self", "publisher"), ("status", status)] publisherModuleGlobals
      "status" with
  | Except.error e => (head, Except.error e)
  | Except.ok (some v) => (head ++ [Frame.json v], Except.ok ())
  | Except.ok none => (head ++ [Frame.json "module-level-object"], Except.ok ())

/-! ## Extra arguments handling, from `supvisors/supervisordata.py`

A process configuration is embedded by its `command`, `command_ref` and
`extra_args` attributes; the Supervisor process map is an association list
from namespec to configuration. -/

/-- The attributes of a Supervisor `ProcessConfig` touched here. -/
structure ProcessConfig where
  command : String
  command_ref : String
  extra_args : String
  deriving DecidableEq, Repr

/-- `SupervisorData.prepare_extra_args` on one configuration: record the
reference command line and clear the extra arguments. -/
def prepare_config (config : ProcessConfig) : ProcessConfig :=
  { config with command_ref := config.command, extra_args := "" }

/-- `SupervisorData.prepare_extra_args` over the whole process map. -/
def prepare_extra_args (data : List (String × ProcessConfig)) :
    List (String × ProcessConfig) :=
  data.map (fun kv => (kv.1, prepare_config kv.2))

/-- `SupervisorData.update_extra_args` on one configuration: reset the
command line from the reference, store the extra arguments, and append them
to the command line when non-empty (Python string truthiness). -/
def update_extra_args_config (config : ProcessConfig) (extra_args : String) :
    ProcessConfig :=
  let config := { config with command := config.command_ref, extra_args := extra_args }
  if extra_args ≠ "" then { config with command := config.command ++ " " ++ extra_args }
  else config

/-- Replacement of the configuration stored under a namespec. -/
def set_config (data : List (String × ProcessConfig)) (namespec : String)
    (config : ProcessConfig) : List (String × ProcessConfig) :=
  data.map (fun kv => if kv.1 = namespec then (kv.1, config) else kv)

/-- `SupervisorData.update_extra_args`: `none` embeds the `KeyError` raised
for a namespec unknown to the local Supervisor. -/
def update_extra_args (data : List (String × ProcessConfig)) (namespec : String)
    (extra_args : String) : Option (List (String × ProcessConfig)) :=
  match alistLookup data namespec with
  | none => none
  | some config => some (set_config data namespec (update_extra_args_config config extra_args))

/-- A sequence of `update_extra_args` calls on the same namespec. -/
def apply_extra_args_calls (data : List (String × ProcessConfig)) (namespec : String) :
    List String → Option (List (String × ProcessConfig))
  | [] => some data
  | e :: es =>
    match update_extra_args data namespec e with
    | none => none
    | some d => apply_extra_args_calls d namespec es

/-! ## Concrete instances used by witnesses and counterexamples -/

/-- Two RUNNING nodes with equal load, in configuration order A then B. -/
def c1nodes : List (String × NodeStatus) :=
  [("A", ⟨AddressStates.RUNNING, 40⟩), ("B", ⟨AddressStates.RUNNING, 40⟩)]

/-- Conflict of the boundary scenario S2: process P runs on X (uptime 10)
and Y (uptime 30). -/
def conflictXY : ConflictProcess :=
  ⟨"application:P", ["X", "Y"], fun n => if n = "X" then 10 else 30⟩

/-- Processes p1 and p2 of the same application A. -/
def procP1 : Proc := ⟨"A", "p1", RunningFailureStrategies.RESTART_PROCESS⟩

/-- Second process of application A, subject to a CONTINUE job. -/
def procP2 : Proc := ⟨"A", "p2", RunningFailureStrategies.CONTINUE⟩

/-- Handler state after adding CONTINUE for p2 and then RESTART_PROCESS for
p1, both of application A. -/
def handlerStateAfterTwoAdds : RFHState :=
  applyRFHOps [RFHOp.add RunningFailureStrategies.CONTINUE procP2,
    RFHOp.add RunningFailureStrategies.RESTART_PROCESS procP1] initialRFH

/-- Registry with a SILENT remote peer R and the local node L. -/
def c7addresses : List AddressStatus :=
  [⟨"R", AddressStates.SILENT⟩, ⟨"L", AddressStates.RUNNING⟩]

/-- Process map with a single program. -/
def c10data : List (String × ProcessConfig) :=
  [("group:proc", ⟨"cmd -a", "", ""⟩)]

/-! ## Proofs about the placement strategies (C1) -/

theorem orderedInsert_head_cons (x y : String × Nat) (ys : List (String × Nat)) :
    (List.orderedInsert loadLE x (y :: ys)).head? =
      some (if x.2 ≤ y.2 then x else y) := by
  by_cases h : loadLE x y
  · have h2 : x.2 ≤ y.2 := h
    rw [List.orderedInsert, if_pos h, if_pos h2]
    rfl
  · have h2 : ¬ x.2 ≤ y.2 := h
    rw [List.orderedInsert, if_neg h, if_neg h2]
    rfl

theorem insertionSort_head_eq :
    ∀ l : List (String × Nat),
      (List.insertionSort loadLE l).head? = firstMinByLoad l
  | [] => rfl
  | x :: xs => by
    rw [List.insertionSort]
    cases hs : List.insertionSort loadLE xs with
    | nil =>
      have hfm : firstMinByLoad xs = none := by
        rw [← insertionSort_head_eq xs, hs]; rfl
      simp [List.orderedInsert, firstMinByLoad, hfm]
    | cons y ys =>
      have hfm : firstMinByLoad xs = some y := by
        rw [← insertionSort_head_eq xs, hs]; rfl
      rw [orderedInsert_head_cons]
      by_cases hxy : x.2 ≤ y.2 <;> simp [firstMinByLoad, hfm, hxy]

theorem orderedInsert_getLast (x : String × Nat) :
    ∀ (l : List (String × Nat)), List.Sorted loadLE l →
      (List.orderedInsert loadLE x l).getLast? =
        some ((l.getLast?.map (fun m => if x.2 ≤ m.2 then m else x)).getD x)
  | [], _ => rfl
  | y :: ys, hsorted => by
    have hys : List.Sorted loadLE ys := (List.sorted_cons.mp hsorted).2
    have hhead : ∀ b ∈ ys, loadLE y b := (List.sorted_cons.mp hsorted).1
    by_cases h : loadLE x y
    · rw [List.orderedInsert, if_pos h]
      cases hm : (y :: ys).getLast? with
      | none => simp at hm
      | some m =>
        have hym : loadLE y m := by
          rcases List.mem_cons.mp (List.mem_of_getLast?_eq_some hm) with heq | hmem
          · exact heq ▸ Nat.le_refl y.2
          · exact hhead m hmem
        have hxm : x.2 ≤ m.2 := Nat.le_trans h hym
        rw [List.getLast?_cons_cons, hm]
        simp [hxm]
    · rw [List.orderedInsert, if_neg h]
      cases ys with
      | nil =>
        have h2 : ¬ x.2 ≤ y.2 := h
        simp [List.orderedInsert, h2]
      | cons z zs =>
        have hrec := orderedInsert_getLast x (z :: zs) hys
        cases hins : List.orderedInsert loadLE x (z :: zs) with
        | nil =>
          rw [hins] at hrec
          simp at hrec
        | cons w ws =>
          rw [List.getLast?_cons_cons, ← hins, hrec, List.getLast?_cons_cons]

theorem insertionSort_getLast_eq :
    ∀ l : List (String × Nat),
      (List.insertionSort loadLE l).getLast? = lastMaxByLoad l
  | [] => rfl
  | x :: xs => by
    rw [List.insertionSort,
      orderedInsert_getLast x _ (List.sorted_insertionSort loadLE xs),
      insertionSort_getLast_eq xs]
    cases h : lastMaxByLoad xs with
    | none => rw [lastMaxByLoad, h]; rfl
    | some m =>
      rw [lastMaxByLoad, h]
      by_cases hxm : x.2 ≤ m.2 <;> simp [hxm]

/-- Claim C1 (amended): a node accepts the load iff its recorded state is
RUNNING and `load + expected_load < 100`; LESS_LOADED returns the accepting
allowed node of minimal current load, ties broken by configuration order;
MOST_LOADED returns the accepting allowed node of maximal current load, ties
broken by reverse configuration order (the last such node); both return none
when no allowed node accepts the load. -/
theorem placement_less_most_loaded (nodes : List (String × NodeStatus))
    (node_names : List String) (expected_load : Nat) (node_name : String)
    (st : NodeStatus) (h : lookupNode nodes node_name = some st) :
    ((is_loading_valid nodes node_name expected_load).1 = true ↔
      (st.state = AddressStates.RUNNING ∧ st.load + expected_load < 100)) ∧
    less_loaded_get_node nodes node_names expected_load =
      Option.map Prod.fst (firstMinByLoad (validLoads nodes node_names expected_load)) ∧
    most_loaded_get_node nodes node_names expected_load =
      Option.map Prod.fst (lastMaxByLoad (validLoads nodes node_names expected_load)) ∧
    (validLoads nodes node_names expected_load = [] →
      less_loaded_get_node nodes node_names expected_load = none ∧
      most_loaded_get_node nodes node_names expected_load = none) := by
  have hsortdef : sort_valid_by_loading
      (get_loading_and_validity nodes node_names expected_load) =
      List.insertionSort loadLE (validLoads nodes node_names expected_load) := rfl
  refine ⟨?_, ?_, ?_, ?_⟩
  · unfold is_loading_valid lookupNode at *
    rw [h]
    by_cases hr : st.state = AddressStates.RUNNING
    · simp [hr]
    · simp [hr]
  · rw [less_loaded_get_node, hsortdef, insertionSort_head_eq]
  · rw [most_loaded_get_node, hsortdef, insertionSort_getLast_eq]
  · intro hempty
    constructor
    · rw [less_loaded_get_node, hsortdef, hempty]
      rfl
    · rw [most_loaded_get_node, hsortdef, hempty]
      rfl

/-- Claim C1 witness: the acceptance characterization instantiated on node A
of the concrete configuration. -/
theorem placement_less_most_loaded_witness :
    (is_loading_valid c1nodes "A" 10).1 = true ↔
      ((NodeStatus.mk AddressStates.RUNNING 40).state = AddressStates.RUNNING ∧
        (NodeStatus.mk AddressStates.RUNNING 40).load + 10 < 100) :=
  (placement_less_most_loaded c1nodes ["A", "B"] 10 "A"
    ⟨AddressStates.RUNNING, 40⟩ rfl).1

/-- Claim C1 counterexample: A and B both accept load 10 with the same
current load 40, A precedes B in configuration order, yet MOST_LOADED returns
B, not A as the configuration-order tie-break of the claim would require. -/
theorem placement_most_loaded_tie_counterexample :
    (is_loading_valid c1nodes "A" 10).1 = true ∧
    (is_loading_valid c1nodes "B" 10).1 = true ∧
    (is_loading_valid c1nodes "A" 10).2 = (is_loading_valid c1nodes "B" 10).2 ∧
    most_loaded_get_node c1nodes ["A", "B"] 10 = some "B" ∧
    most_loaded_get_node c1nodes ["A", "B"] 10 ≠ some "A" ∧
    Option.map Prod.fst (firstMaxByLoad (validLoads c1nodes ["A", "B"] 10)) =
      some "A" := by
  decide

/-! ## Proofs about the conciliation strategies (C3) -/

theorem firstMinByUptime_spec (uptime : String → Nat) :
    ∀ l : List String, l ≠ [] →
      ∃ m, firstMinByUptime uptime l = some m ∧ m ∈ l ∧
        ∀ n ∈ l, uptime m ≤ uptime n
  | [], h => absurd rfl h
  | x :: xs, _ => by
    cases hxs : xs with
    | nil =>
      refine ⟨x, by simp [firstMinByUptime], by simp, ?_⟩
      intro n hn
      rcases List.mem_cons.mp hn with heq | hmem
      · exact heq ▸ Nat.le_refl _
      · simp at hmem
    | cons z zs =>
      subst hxs
      obtain ⟨m, hm, hmem, hle⟩ :=
        firstMinByUptime_spec uptime (z :: zs) (List.cons_ne_nil z zs)
      by_cases hx : uptime x ≤ uptime m
      · refine ⟨x, ?_, by simp, ?_⟩
        · rw [firstMinByUptime]
          simp only [hm]
          rw [if_pos hx]
        · intro n hn
          rcases List.mem_cons.mp hn with heq | hmem2
          · exact heq ▸ Nat.le_refl _
          · exact Nat.le_trans hx (hle n hmem2)
      · refine ⟨m, ?_, List.mem_cons_of_mem x hmem, ?_⟩
        · rw [firstMinByUptime]
          simp only [hm]
          rw [if_neg hx]
        · intro n hn
          rcases List.mem_cons.mp hn with heq | hmem2
          · exact heq ▸ Nat.le_of_not_le hx
          · exact hle n hmem2

/-- Claim C3 (amended): for a conflicting process, SENICIDE retains the
running node of minimal uptime (the youngest process instance) and issues a
stop request to every other running node, and only to those. -/
theorem senicide_keeps_min_uptime (process : ConflictProcess)
    (h : process.running_nodes ≠ []) (hnd : process.running_nodes.Nodup) :
    ∃ saved_node,
      firstMinByUptime process.uptime process.running_nodes = some saved_node ∧
      saved_node ∈ process.running_nodes ∧
      (∀ n ∈ process.running_nodes, process.uptime saved_node ≤ process.uptime n) ∧
      senicide_process_sends process =
        (process.running_nodes.erase saved_node).map
          (fun node_name => (node_name, process.namespec)) ∧
      (∀ e ∈ senicide_process_sends process,
        e.1 ≠ saved_node ∧ e.1 ∈ process.running_nodes ∧ e.2 = process.namespec) ∧
      senicide_conciliate [process] = senicide_process_sends process := by
  obtain ⟨m, hm, hmem, hle⟩ :=
    firstMinByUptime_spec process.uptime process.running_nodes h
  refine ⟨m, hm, hmem, hle, ?_, ?_, ?_⟩
  · rw [senicide_process_sends, hm]
  · intro e he
    rw [senicide_process_sends, hm] at he
    rcases List.mem_map.mp he with ⟨n, hn, hne⟩
    have hn2 : n ≠ m ∧ n ∈ process.running_nodes := (List.Nodup.mem_erase_iff hnd).mp hn
    refine ⟨?_, ?_, ?_⟩
    · rw [← hne]; exact hn2.1
    · rw [← hne]; exact hn2.2
    · rw [← hne]
  · simp [senicide_conciliate]

/-- Claim C3 witness: the amended statement instantiated on the S2 conflict. -/
theorem senicide_keeps_min_uptime_witness :
    ∃ saved_node,
      firstMinByUptime conflictXY.uptime conflictXY.running_nodes = some saved_node ∧
      saved_node ∈ conflictXY.running_nodes ∧
      (∀ n ∈ conflictXY.running_nodes,
        conflictXY.uptime saved_node ≤ conflictXY.uptime n) ∧
      senicide_process_sends conflictXY =
        (conflictXY.running_nodes.erase saved_node).map
          (fun node_name => (node_name, conflictXY.namespec)) ∧
      (∀ e ∈ senicide_process_sends conflictXY,
        e.1 ≠ saved_node ∧ e.1 ∈ conflictXY.running_nodes ∧ e.2 = conflictXY.namespec) ∧
      senicide_conciliate [conflictXY] = senicide_process_sends conflictXY :=
  senicide_keeps_min_uptime conflictXY (by decide) (by decide)

/-- Claim C3 counterexample: on the S2 conflict the code keeps X (uptime 10,
the minimum) and sends the stop to Y, while the claim requires keeping Y
(the largest uptime) and stopping X only. -/
theorem senicide_counterexample :
    senicide_conciliate [conflictXY] = [("Y", "application:P")] ∧
    senicide_conciliate [conflictXY] ≠ [("X", "application:P")] := by
  decide

/-! ## Proofs about the RunningFailureHandler (C2, C5) -/

theorem rfh_inv_initial : RFHInv initialRFH := by decide

theorem rfh_inv_add_job (strategy : RunningFailureStrategies) (p : Proc) (s : RFHState)
    (h : RFHInv s) : RFHInv (add_job strategy p s) := by
  obtain ⟨h1, h2, h3, h4⟩ := h
  cases strategy with
  | STOP_APPLICATION =>
    refine ⟨?_, ?_, ?_, ?_⟩
    · intro a ha
      simp only [add_job, Finset.mem_insert] at ha
      simp only [add_job, Finset.mem_erase]
      rcases ha with rfl | ha
      · rintro ⟨hne, -⟩
        exact hne rfl
      · rintro ⟨-, hmem⟩
        exact h1 a ha hmem
    · intro q hq
      simp only [add_job, Finset.mem_filter] at hq
      obtain ⟨hq, hne⟩ := hq
      refine ⟨?_, ?_⟩
      · simp only [add_job, Finset.mem_insert]
        rintro (heq | hmem)
        · exact hne heq
        · exact (h2 q hq).1 hmem
      · simp only [add_job, Finset.mem_erase]
        rintro ⟨-, hmem⟩
        exact (h2 q hq).2 hmem
    · intro q hq
      simp only [add_job, Finset.mem_filter] at hq
      obtain ⟨hq, hne⟩ := hq
      refine ⟨?_, ?_⟩
      · simp only [add_job, Finset.mem_insert]
        rintro (heq | hmem)
        · exact hne heq
        · exact (h3 q hq).1 hmem
      · simp only [add_job, Finset.mem_erase]
        rintro ⟨-, hmem⟩
        exact (h3 q hq).2 hmem
    · intro q hq
      simp only [add_job, Finset.mem_filter] at hq ⊢
      rintro ⟨hmem, -⟩
      exact h4 q hq.1 hmem
  | RESTART_APPLICATION =>
    by_cases hg : p.application_name ∈ s.stop_application_jobs
    · simpa only [add_job, if_pos hg] using ⟨h1, h2, h3, h4⟩
    · refine ⟨?_, ?_, ?_, ?_⟩
      · intro a ha
        simp only [add_job, if_neg hg] at ha ⊢
        simp only [Finset.mem_insert]
        rintro (rfl | hmem)
        · exact hg ha
        · exact h1 a ha hmem
      · intro q hq
        simp only [add_job, if_neg hg, Finset.mem_filter] at hq ⊢
        obtain ⟨hq, hne⟩ := hq
        refine ⟨(h2 q hq).1, ?_⟩
        simp only [Finset.mem_insert]
        rintro (heq | hmem)
        · exact hne heq
        · exact (h2 q hq).2 hmem
      · intro q hq
        simp only [add_job, if_neg hg, Finset.mem_filter] at hq ⊢
        obtain ⟨hq, hne⟩ := hq
        refine ⟨(h3 q hq).1, ?_⟩
        simp only [Finset.mem_insert]
        rintro (heq | hmem)
        · exact hne heq
        · exact (h3 q hq).2 hmem
      · intro q hq
        simp only [add_job, if_neg hg, Finset.mem_filter] at hq ⊢
        rintro ⟨hmem, -⟩
        exact h4 q hq.1 hmem
  | RESTART_PROCESS =>
    by_cases hg : p.application_name ∈ s.stop_application_jobs ∪ s.restart_application_jobs
    · simpa only [add_job, if_pos hg] using ⟨h1, h2, h3, h4⟩
    · have hg2 : p.application_name ∉ s.stop_application_jobs ∧
          p.application_name ∉ s.restart_application_jobs := by
        rw [Finset.mem_union, not_or] at hg
        exact hg
      refine ⟨?_, ?_, ?_, ?_⟩
      · intro a ha
        simp only [add_job, if_neg hg] at ha ⊢
        exact h1 a ha
      · intro q hq
        simp only [add_job, if_neg hg, Finset.mem_insert] at hq ⊢
        rcases hq with rfl | hq
        · exact hg2
        · exact h2 q hq
      · intro q hq
        simp only [add_job, if_neg hg, Finset.mem_erase] at hq ⊢
        exact h3 q hq.2
      · intro q hq
        simp only [add_job, if_neg hg, Finset.mem_insert] at hq
        simp only [add_job, if_neg hg, Finset.mem_erase]
        rcases hq with rfl | hq
        · rintro ⟨hne, -⟩
          exact hne rfl
        · rintro ⟨-, hmem⟩
          exact h4 q hq hmem
  | CONTINUE =>
    by_cases hg : p.application_name ∈ s.stop_application_jobs ∪ s.restart_application_jobs
        ∨ p ∈ s.restart_process_jobs
    · simpa only [add_job, if_pos hg] using ⟨h1, h2, h3, h4⟩
    · have hg2 : p.application_name ∉ s.stop_application_jobs ∧
          p.application_name ∉ s.restart_application_jobs ∧ p ∉ s.restart_process_jobs := by
        rw [not_or, Finset.mem_union, not_or] at hg
        exact ⟨hg.1.1, hg.1.2, hg.2⟩
      refine ⟨?_, ?_, ?_, ?_⟩
      · intro a ha
        simp only [add_job, if_neg hg] at ha ⊢
        exact h1 a ha
      · intro q hq
        simp only [add_job, if_neg hg] at hq ⊢
        exact h2 q hq
      · intro q hq
        simp only [add_job, if_neg hg, Finset.mem_insert] at hq ⊢
        rcases hq with rfl | hq
        · exact ⟨hg2.1, hg2.2.1⟩
        · exact h3 q hq
      · intro q hq
        simp only [add_job, if_neg hg] at hq
        simp only [add_job, if_neg hg, Finset.mem_insert]
        rintro (rfl | hmem)
        · exact hg2.2.2 hq
        · exact h4 q hq hmem

theorem rfh_inv_trigger (env : TriggerEnv) (s : RFHState) (h : RFHInv s) :
    RFHInv (trigger_jobs env s) := by
  obtain ⟨h1, h2, _, _⟩ := h
  refine ⟨?_, ?_, ?_, ?_⟩
  · intro a ha
    simp only [trigger_jobs, Finset.mem_filter] at ha ⊢
    rintro ⟨hmem, -⟩
    exact h1 a ha.1 hmem
  · intro q hq
    simp only [trigger_jobs, Finset.mem_filter] at hq ⊢
    exact ⟨fun hc => (h2 q hq.1).1 hc.1, fun hc => (h2 q hq.1).2 hc.1⟩
  · intro q hq
    simp only [trigger_jobs] at hq
    exact absurd hq (Finset.not_mem_empty q)
  · intro q hq
    simp only [trigger_jobs]
    exact Finset.not_mem_empty q

theorem rfh_inv_applyOps :
    ∀ (ops : List RFHOp) (s : RFHState), RFHInv s → RFHInv (applyRFHOps ops s)
  | [], _, h => h
  | op :: ops, s, h => by
    have hstep : RFHInv (applyRFHOp s op) := by
      cases op with
      | add strategy p => exact rfh_inv_add_job strategy p s h
      | addDefault p => exact rfh_inv_add_job p.running_failure_strategy p s h
      | abortAll => exact rfh_inv_initial
      | trigger env => exact rfh_inv_trigger env s h
    simpa only [applyRFHOps, List.foldl_cons] using
      rfh_inv_applyOps ops (applyRFHOp s op) hstep

/-- Claim C5 (amended): after every sequence of `add_job`, `add_default_job`,
`abort` and `trigger_jobs` calls, the handler satisfies: the two
application-level sets are disjoint, no process of `restart_process_jobs` or
`continue_process_jobs` belongs to an application present in an
application-level set, and the two process-level sets are disjoint as sets of
processes; an application may however be represented in both
`restart_process_jobs` and `continue_process_jobs` through different
processes, and the deferred start sets are not kept disjoint from the rest. -/
theorem failure_handler_invariant (ops : List RFHOp) :
    RFHInv (applyRFHOps ops initialRFH) :=
  rfh_inv_applyOps ops initialRFH rfh_inv_initial

/-- Claim C5 counterexample: after CONTINUE(p2) then RESTART_PROCESS(p1) on
the same application A, A is represented in both `restart_process_jobs` and
`continue_process_jobs`, so the six sets are not pairwise disjoint per
application. -/
theorem failure_handler_disjoint_counterexample :
    ¬ pairwiseDisjointPerApplication handlerStateAfterTwoAdds ∧
    "A" ∈ appsOfJobs handlerStateAfterTwoAdds.restart_process_jobs ∧
    "A" ∈ appsOfJobs handlerStateAfterTwoAdds.continue_process_jobs := by
  decide

/-- Claim C2 (amended): the application-level additions (STOP_APPLICATION,
RESTART_APPLICATION when not discarded) remove every strictly-lower-priority
entry concerning the application; RESTART_PROCESS removes only the same
process from `continue_process_jobs`; an addition is discarded when the
application already sits in a strictly-higher application-level set (a
CONTINUE also when the same process is in `restart_process_jobs`); and adding
STOP_APPLICATION after any lower-priority `add_job` sequence leaves the
application represented only in `stop_application_jobs`. -/
theorem rfh_add_job_priority (s : RFHState) (p q : Proc)
    (hInv : RFHInv s)
    (hsa : s.start_application_jobs = ∅) (hsp : s.start_process_jobs = ∅) :
    (p.application_name ∈
      (add_job RunningFailureStrategies.STOP_APPLICATION p s).stop_application_jobs) ∧
    (p.application_name ∉
      (add_job RunningFailureStrategies.STOP_APPLICATION p s).restart_application_jobs) ∧
    (q ∈ (add_job RunningFailureStrategies.STOP_APPLICATION p s).restart_process_jobs ↔
      q ∈ s.restart_process_jobs ∧ q.application_name ≠ p.application_name) ∧
    (q ∈ (add_job RunningFailureStrategies.STOP_APPLICATION p s).continue_process_jobs ↔
      q ∈ s.continue_process_jobs ∧ q.application_name ≠ p.application_name) ∧
    ((add_job RunningFailureStrategies.STOP_APPLICATION p s).start_application_jobs = ∅ ∧
      (add_job RunningFailureStrategies.STOP_APPLICATION p s).start_process_jobs = ∅) ∧
    (p.application_name ∈
        (add_job RunningFailureStrategies.RESTART_APPLICATION p s).restart_application_jobs ↔
      p.application_name ∉ s.stop_application_jobs) ∧
    (p.application_name ∈ s.stop_application_jobs →
      add_job RunningFailureStrategies.RESTART_APPLICATION p s = s) ∧
    (q ∈ (add_job RunningFailureStrategies.RESTART_APPLICATION p s).restart_process_jobs ↔
      q ∈ s.restart_process_jobs ∧
        (p.application_name ∈ s.stop_application_jobs ∨
          q.application_name ≠ p.application_name)) ∧
    (q ∈ (add_job RunningFailureStrategies.RESTART_APPLICATION p s).continue_process_jobs ↔
      q ∈ s.continue_process_jobs ∧
        (p.application_name ∈ s.stop_application_jobs ∨
          q.application_name ≠ p.application_name)) ∧
    (p ∈ (add_job RunningFailureStrategies.RESTART_PROCESS p s).restart_process_jobs ↔
      (p.application_name ∉ s.stop_application_jobs ∧
        p.application_name ∉ s.restart_application_jobs)) ∧
    ((p.application_name ∈ s.stop_application_jobs ∨
        p.application_name ∈ s.restart_application_jobs) →
      add_job RunningFailureStrategies.RESTART_PROCESS p s = s) ∧
    (q ∈ (add_job RunningFailureStrategies.RESTART_PROCESS p s).continue_process_jobs ↔
      q ∈ s.continue_process_jobs ∧
        ((p.application_name ∈ s.stop_application_jobs ∨
          p.application_name ∈ s.restart_application_jobs) ∨ q ≠ p)) ∧
    (p ∈ (add_job RunningFailureStrategies.CONTINUE p s).continue_process_jobs ↔
      ((p.application_name ∉ s.stop_application_jobs ∧
        p.application_name ∉ s.restart_application_jobs ∧
        p ∉ s.restart_process_jobs) ∨ p ∈ s.continue_process_jobs)) := by
  obtain ⟨h1, h2, h3, h4⟩ := hInv
  refine ⟨?_, ?_, ?_, ?_, ?_, ?_, ?_, ?_, ?_, ?_, ?_, ?_, ?_⟩
  · simp [add_job]
  · exact Finset.not_mem_erase _ _
  · simp [add_job, Finset.mem_filter]
  · simp [add_job, Finset.mem_filter]
  · exact ⟨by simp [add_job, hsa], by simp [add_job, hsp]⟩
  · by_cases hg : p.application_name ∈ s.stop_application_jobs
    · simp only [add_job, if_pos hg]
      constructor
      · intro hmem
        exact absurd hmem (h1 _ hg)
      · intro hns
        exact absurd hg hns
    · simp [add_job, hg]
  · intro hg
    simp [add_job, hg]
  · by_cases hg : p.application_name ∈ s.stop_application_jobs
    · simp [add_job, hg]
    · simp [add_job, hg, Finset.mem_filter]
  · by_cases hg : p.application_name ∈ s.stop_application_jobs
    · simp [add_job, hg]
    · simp [add_job, hg, Finset.mem_filter]
  · by_cases hg : p.application_name ∈ s.stop_application_jobs ∪ s.restart_application_jobs
    · simp only [add_job, if_pos hg]
      rw [Finset.mem_union] at hg
      constructor
      · intro hmem
        rcases hg with hg | hg
        · exact absurd hg (h2 p hmem).1
        · exact absurd hg (h2 p hmem).2
      · rintro ⟨hns, hnr⟩
        rcases hg with hg | hg
        · exact absurd hg hns
        · exact absurd hg hnr
    · have hg2 : p.application_name ∉ s.stop_application_jobs ∧
          p.application_name ∉ s.restart_application_jobs := by
        rw [Finset.mem_union, not_or] at hg
        exact hg
      simp only [add_job, if_neg hg, Finset.mem_insert]
      constructor
      · intro _
        exact hg2
      · intro _
        exact Or.inl trivial
  · intro hg'
    have hg : p.application_name ∈ s.stop_application_jobs ∪ s.restart_application_jobs :=
      Finset.mem_union.mpr hg'
    simp [add_job, hg]
  · by_cases hg : p.application_name ∈ s.stop_application_jobs ∪ s.restart_application_jobs
    · have hg' := Finset.mem_union.mp hg
      simp [add_job, hg, hg']
    · have hg' : ¬(p.application_name ∈ s.stop_application_jobs ∨
          p.application_name ∈ s.restart_application_jobs) := by
        rwa [Finset.mem_union] at hg
      simp only [add_job, if_neg hg, Finset.mem_erase, hg', false_or]
      constructor
      · rintro ⟨hne, hmem⟩
        exact ⟨hmem, hne⟩
      · rintro ⟨hmem, hne⟩
        exact ⟨hne, hmem⟩
  · by_cases hg : p.application_name ∈ s.stop_application_jobs ∪ s.restart_application_jobs
        ∨ p ∈ s.restart_process_jobs
    · simp only [add_job, if_pos hg]
      constructor
      · intro hmem
        exact Or.inr hmem
      · rintro (⟨hns, hnr, hnp⟩ | hmem)
        · rcases hg with hg | hg
          · rcases Finset.mem_union.mp hg with h' | h'
            · exact absurd h' hns
            · exact absurd h' hnr
          · exact absurd hg hnp
        · exact hmem
    · have hg2 : p.application_name ∉ s.stop_application_jobs ∧
          p.application_name ∉ s.restart_application_jobs ∧ p ∉ s.restart_process_jobs := by
        rw [not_or, Finset.mem_union, not_or] at hg
        exact ⟨hg.1.1, hg.1.2, hg.2⟩
      simp only [add_job, if_neg hg, Finset.mem_insert]
      constructor
      · intro _
        exact Or.inl hg2
      · intro _
        exact Or.inl trivial

/-- Claim C2 witness: the STOP_APPLICATION component instantiated on the
empty handler and process p1. -/
theorem rfh_add_job_priority_witness :
    procP1.application_name ∈
      (add_job RunningFailureStrategies.STOP_APPLICATION procP1
        initialRFH).stop_application_jobs :=
  (rfh_add_job_priority initialRFH procP1 procP2 (by decide) rfl rfl).1

/-- Claim C2 counterexample: adding RESTART_PROCESS for p1 does not remove
the strictly-lower-priority CONTINUE entry of p2, although both concern
application A. -/
theorem rfh_add_job_priority_counterexample :
    procP1 ∈ handlerStateAfterTwoAdds.restart_process_jobs ∧
    procP2 ∈ handlerStateAfterTwoAdds.continue_process_jobs ∧
    procP2.application_name = procP1.application_name := by
  decide

/-! ## Proofs about the RPC command surface (C4) -/

/-- Claim C4: `start_application` raises BAD_SUPERVISORS_STATE exactly when
the FSM state is not OPERATION and `stop_application` exactly when it is
neither OPERATION nor CONCILIATION; in the refused cases no job reaches the
Starter or the Stopper. -/
theorem rpc_state_checks (e1 e2 e3 e4 : RpcEnv) (strategy : Nat)
    (application_name : String) (wait : Bool)
    (h1 : e1.fsm_state ≠ SupervisorsStates.OPERATION)
    (h2 : e2.fsm_state ≠ SupervisorsStates.OPERATION)
    (h2' : e2.fsm_state ≠ SupervisorsStates.CONCILIATION)
    (h3 : e3.fsm_state = SupervisorsStates.OPERATION)
    (h4 : e4.fsm_state = SupervisorsStates.OPERATION ∨
      e4.fsm_state = SupervisorsStates.CONCILIATION) :
    start_application e1 strategy application_name wait =
      (Except.error Fault.BAD_SUPERVISORS_STATE, []) ∧
    stop_application e2 application_name wait =
      (Except.error Fault.BAD_SUPERVISORS_STATE, []) ∧
    (start_application e3 strategy application_name wait).1 ≠
      Except.error Fault.BAD_SUPERVISORS_STATE ∧
    (stop_application e4 application_name wait).1 ≠
      Except.error Fault.BAD_SUPERVISORS_STATE := by
  refine ⟨?_, ?_, ?_, ?_⟩
  · simp [start_application, check_state, h1]
  · simp [stop_application, check_state, h2, h2']
  · simp only [start_application, check_state, List.mem_cons, List.not_mem_nil, or_false, h3,
      if_pos]
    split
    · simp
    · split
      · simp
      · split
        · simp
        · split <;> simp
  · have hmem : e4.fsm_state ∈
        [SupervisorsStates.OPERATION, SupervisorsStates.CONCILIATION] := by
      rcases h4 with h | h <;> simp [h]
    simp only [stop_application, check_state, if_pos hmem]
    split
    · simp
    · split <;> simp

/-- Claim C4 witness: the statement instantiated with concrete environments
in states INITIALIZATION (refused) and OPERATION (admitted). -/
theorem rpc_state_checks_witness :
    start_application ⟨SupervisorsStates.INITIALIZATION, [], true, true⟩ 0 "app" true =
      (Except.error Fault.BAD_SUPERVISORS_STATE, []) :=
  (rpc_state_checks ⟨SupervisorsStates.INITIALIZATION, [], true, true⟩
    ⟨SupervisorsStates.DEPLOYMENT, [], true, true⟩
    ⟨SupervisorsStates.OPERATION, [], true, true⟩
    ⟨SupervisorsStates.CONCILIATION, [], true, true⟩ 0 "app" true
    (by decide) (by decide) (by decide) rfl (Or.inr rfl)).1

/-! ## Proofs about the asynchronous pool helpers (C6, C8) -/

/-- Claim C6: in a run where every remote call succeeds, the authorization
event reports false exactly when the remote reports the probed node's
statecode as ISOLATING or ISOLATED, and the remote process list is fetched
and forwarded (queued) exactly when authorization succeeds. -/
theorem async_check_address_auth (address_name : String) (env : CheckEnv)
    (sc : AddressStates) (info : List String)
    (hl : env.local_proxy_ok = true) (hr : env.remote_proxy_ok = true)
    (hs : env.get_address_info_result = some ⟨sc⟩)
    (hi : env.all_process_info_result = some info)
    (h1 : env.send_info_ok = true) (h2 : env.send_auth_ok = true) :
    (PoolEffect.comm_event_auth address_name false ∈
        (async_check_address address_name env).1 ↔
      (sc = AddressStates.ISOLATING ∨ sc = AddressStates.ISOLATED)) ∧
    (PoolEffect.comm_event_auth address_name true ∈
        (async_check_address address_name env).1 ↔
      ¬(sc = AddressStates.ISOLATING ∨ sc = AddressStates.ISOLATED)) ∧
    (PoolEffect.queue_put address_name info ∈
        (async_check_address address_name env).1 ↔
      ¬(sc = AddressStates.ISOLATING ∨ sc = AddressStates.ISOLATED)) := by
  by_cases hsc : sc = AddressStates.ISOLATING ∨ sc = AddressStates.ISOLATED
  · have hdec : decide (AddressInfoPayload.statecode ⟨sc⟩ ∉
        [AddressStates.ISOLATING, AddressStates.ISOLATED]) = false := by
      simp [hsc]
    simp [async_check_address, tryExceptPass, async_check_address_body, hl, hr, hs, hi,
      h1, h2, hdec, hsc]
  · have hdec : decide (AddressInfoPayload.statecode ⟨sc⟩ ∉
        [AddressStates.ISOLATING, AddressStates.ISOLATED]) = true := by
      simp [not_or] at hsc
      simp [hsc]
    simp [async_check_address, tryExceptPass, async_check_address_body, hl, hr, hs, hi,
      h1, h2, hdec, hsc]

/-- Claim C6 witness: the first component instantiated on a remote that
reports the probed node ISOLATED. -/
theorem async_check_address_auth_witness :
    PoolEffect.comm_event_auth "R" false ∈
        (async_check_address "R"
          ⟨true, true, some ⟨AddressStates.ISOLATED⟩, some ["info"], true, true⟩).1 ↔
      (AddressStates.ISOLATED = AddressStates.ISOLATING ∨
        AddressStates.ISOLATED = AddressStates.ISOLATED) :=
  (async_check_address_auth "R"
    ⟨true, true, some ⟨AddressStates.ISOLATED⟩, some ["info"], true, true⟩
    AddressStates.ISOLATED ["info"] rfl rfl rfl rfl rfl rfl).1

/-- Claim C8: none of the five pool helpers lets an exception escape, and
absorbing an error does not lose the effects already performed. -/
theorem pool_helpers_absorb_errors (address_name namespec extra_args : String)
    (env : CheckEnv) (p1 c1 p2 c2 p3 c3 p4 c4 : Bool) :
    ((async_check_address address_name env).2 = false ∧
      (async_check_address address_name env).1 =
        (async_check_address_body address_name env).1) ∧
    ((async_start_process address_name namespec extra_args p1 c1).2 = false ∧
      (async_start_process address_name namespec extra_args p1 c1).1 =
        (async_start_process_body address_name namespec extra_args p1 c1).1) ∧
    ((async_stop_process address_name namespec p2 c2).2 = false ∧
      (async_stop_process address_name namespec p2 c2).1 =
        (async_stop_process_body address_name namespec p2 c2).1) ∧
    ((async_restart address_name p3 c3).2 = false ∧
      (async_restart address_name p3 c3).1 =
        (async_restart_body address_name p3 c3).1) ∧
    ((async_shutdown address_name p4 c4).2 = false ∧
      (async_shutdown address_name p4 c4).1 =
        (async_shutdown_body address_name p4 c4).1) :=
  ⟨⟨rfl, rfl⟩, ⟨rfl, rfl⟩, ⟨rfl, rfl⟩, ⟨rfl, rfl⟩, ⟨rfl, rfl⟩⟩

/-! ## Proofs about cluster-wide restart and shutdown (C7) -/

/-- Claim C7 (amended): `restart()` and `shutdown()` issue the request to
every remote peer whose recorded state is RUNNING — skipping the other
remote peers — in registry order first, and to the local identifier last. -/
theorem send_addresses_func_targets (local_address : String)
    (addresses : List AddressStatus) :
    (send_addresses_func local_address addresses).getLast? = some local_address ∧
    local_address ∉ (send_addresses_func local_address addresses).dropLast ∧
    (∀ a, a ∈ (send_addresses_func local_address addresses).dropLast ↔
      (a ≠ local_address ∧
        ∃ st ∈ addresses, st.address = a ∧ st.state = AddressStates.RUNNING)) ∧
    restart_requests local_address addresses =
      (send_addresses_func local_address addresses).map RpcCallEffect.restart_call ∧
    shutdown_requests local_address addresses =
      (send_addresses_func local_address addresses).map RpcCallEffect.shutdown_call := by
  refine ⟨?_, ?_, ?_, rfl, rfl⟩
  · rw [send_addresses_func, List.getLast?_concat]
  · rw [send_addresses_func, List.dropLast_concat]
    simp only [List.mem_map, List.mem_filter, decide_eq_true_eq]
    rintro ⟨st, ⟨-, hne, -⟩, heq⟩
    exact hne heq
  · intro a
    rw [send_addresses_func, List.dropLast_concat]
    simp only [List.mem_map, List.mem_filter, decide_eq_true_eq]
    constructor
    · rintro ⟨st, ⟨hmem, hne, hrun, -⟩, heq⟩
      exact ⟨heq ▸ hne, st, hmem, heq, hrun⟩
    · rintro ⟨hne, st, hmem, heq, hrun⟩
      exact ⟨st, ⟨hmem, heq ▸ hne, hrun, heq ▸ hne⟩, heq⟩

/-- Claim C7 counterexample: with a SILENT remote peer R in the registry,
`restart()` issues the request to the local identifier only; R is a peer of
the cluster but receives no request. -/
theorem restart_skips_non_running_counterexample :
    restart_requests "L" c7addresses = [RpcCallEffect.restart_call "L"] ∧
    RpcCallEffect.restart_call "R" ∉ restart_requests "L" c7addresses ∧
    (⟨"R", AddressStates.SILENT⟩ : AddressStatus) ∈ c7addresses := by
  decide

/-! ## Proofs about the event publisher (C9) -/

/-- Claim C9: the code contradicts the claim — `sendStatistics` sends the
header frame, then raises `NameError` on the unbound name `status` and never
publishes the `stats` argument, unlike the sibling `sendProcessStatus` which
publishes its parameter. -/
theorem sendStatistics_name_error (stats : String) :
    sendStatistics stats =
      ([Frame.header "StatisticsHeader" true],
        Except.error (PyError.nameError "status")) ∧
    Frame.json stats ∉ (sendStatistics stats).1 ∧
    sendProcessStatus stats =
      ([Frame.header "ProcessStatusHeader" true, Frame.json stats], Except.ok ()) := by
  refine ⟨rfl, ?_, rfl⟩
  intro hmem
  rw [show (sendStatistics stats).1 = [Frame.header "StatisticsHeader" true] from rfl]
    at hmem
  simp at hmem

/-! ## Proofs about extra-arguments handling (C10) -/

theorem alistLookup_set_config (namespec : String) (c : ProcessConfig) :
    ∀ (data : List (String × ProcessConfig)) (cfg : ProcessConfig),
      alistLookup data namespec = some cfg →
      alistLookup (set_config data namespec c) namespec = some c
  | [], _, h => by simp [alistLookup] at h
  | kv :: rest, cfg, h => by
    by_cases hk : kv.1 = namespec
    · simp [set_config, alistLookup, hk]
    · rw [alistLookup, if_neg hk] at h
      rw [set_config, List.map_cons, if_neg hk, alistLookup, if_neg hk]
      exact alistLookup_set_config namespec c rest cfg h

theorem alistLookup_prepare (namespec : String) :
    ∀ data : List (String × ProcessConfig),
      alistLookup (prepare_extra_args data) namespec =
        (alistLookup data namespec).map prepare_config
  | [] => rfl
  | kv :: rest => by
    by_cases hk : kv.1 = namespec
    · simp [prepare_extra_args, alistLookup, hk]
    · rw [prepare_extra_args, List.map_cons, alistLookup, if_neg hk, alistLookup,
        if_neg hk, ← prepare_extra_args]
      exact alistLookup_prepare namespec rest

theorem update_extra_args_config_eq (cfg : ProcessConfig) (e : String) :
    update_extra_args_config cfg e =
      ⟨if e = "" then cfg.command_ref else cfg.command_ref ++ " " ++ e,
        cfg.command_ref, e⟩ := by
  by_cases he : e = "" <;> simp [update_extra_args_config, he]

theorem apply_extra_args_calls_aux (namespec R : String) :
    ∀ (es : List String) (e : String) (data : List (String × ProcessConfig))
      (cfg : ProcessConfig),
      alistLookup data namespec = some cfg → cfg.command_ref = R →
      ∃ d, apply_extra_args_calls data namespec (es ++ [e]) = some d ∧
        alistLookup d namespec =
          some ⟨if e = "" then R else R ++ " " ++ e, R, e⟩
  | [], e, data, cfg, h, href => by
    refine ⟨set_config data namespec (update_extra_args_config cfg e), ?_, ?_⟩
    · simp [apply_extra_args_calls, update_extra_args, h]
    · rw [alistLookup_set_config namespec _ data cfg h, update_extra_args_config_eq,
        href]
  | e' :: es, e, data, cfg, h, href => by
    obtain ⟨d, hd, hlook⟩ := apply_extra_args_calls_aux namespec R es e
      (set_config data namespec (update_extra_args_config cfg e'))
      (update_extra_args_config cfg e')
      (alistLookup_set_config namespec _ data cfg h)
      (by rw [update_extra_args_config_eq, href])
    refine ⟨d, ?_, hlook⟩
    rw [List.cons_append, apply_extra_args_calls, update_extra_args, h]
    exact hd

/-- Claim C10: after `prepare_extra_args`, any sequence of
`update_extra_args` calls on a known namespec leaves the command line equal
to the reference command extended by only the most recent extra arguments;
an empty final value restores the original command exactly. -/
theorem update_extra_args_last_wins (data : List (String × ProcessConfig))
    (namespec : String) (config : ProcessConfig)
    (h : alistLookup data namespec = some config)
    (es : List String) (e : String) :
    ∃ d, apply_extra_args_calls (prepare_extra_args data) namespec (es ++ [e]) =
        some d ∧
      alistLookup d namespec = some
        ⟨if e = "" then config.command else config.command ++ " " ++ e,
          config.command, e⟩ := by
  refine apply_extra_args_calls_aux namespec config.command es e
    (prepare_extra_args data) (prepare_config config) ?_ rfl
  rw [alistLookup_prepare, h]
  rfl

/-- Claim C10 witness: two updates on the concrete map, the second empty,
restore the original command exactly. -/
theorem update_extra_args_last_wins_witness :
    ∃ d, apply_extra_args_calls (prepare_extra_args c10data) "group:proc"
        (["-x"] ++ [""]) = some d ∧
      alistLookup d "group:proc" = some
        ⟨if "" = "" then ProcessConfig.command ⟨"cmd -a", "", ""⟩
          else ProcessConfig.command ⟨"cmd -a", "", ""⟩ ++ " " ++ "",
          ProcessConfig.command ⟨"cmd -a", "", ""⟩, ""⟩ :=
  update_extra_args_last_wins c10data "group:proc" ⟨"cmd -a", "", ""⟩ rfl ["-x"] ""

end Supvisors
